import Mathlib

set_option maxRecDepth 4000

namespace Winlog

/-- Log severity levels, mirroring `enum class LogLevel` in `include/winlog.h` (lines 26-34). -/
inductive LogLevel where
  | trace
  | debug
  | info
  | warn
  | error
  | critical
  | off
deriving DecidableEq

/-- Value of the `LOG_MESSAGE_BUFFER_SIZE` macro in `include/winlog.h` (line 37). -/
def LOG_MESSAGE_BUFFER_SIZE : Nat := 512

/-- Value of the `LOG_FILE_BUFFER_SIZE` macro in `include/winlog.h` (line 38). -/
def LOG_FILE_BUFFER_SIZE : Nat := 256

/-- Size of the fixed `char time[32]` buffer of `LogEntry` (`include/winlog.h` line 43). -/
def LOG_TIME_BUFFER_SIZE : Nat := 32

/-- The `LogEntry` record of `include/winlog.h` (lines 41-85). The three fixed `char` buffers
are modelled as byte lists whose length equals the buffer capacity. -/
structure LogEntry where
  level : LogLevel
  time : List Nat
  message : List Nat
  file : List Nat
  line : Int
  messageLen : Nat
  fileLen : Nat
  timeLen : Nat
deriving DecidableEq

/-- Default constructor `LogEntry::LogEntry()` (`winlog.cpp` lines 26-30): zeroes the length
fields and the whole of each buffer via `memset`. -/
def LogEntry.mkDefault : LogEntry :=
  { level := LogLevel.info
    time := List.replicate LOG_TIME_BUFFER_SIZE 0
    message := List.replicate LOG_MESSAGE_BUFFER_SIZE 0
    file := List.replicate LOG_FILE_BUFFER_SIZE 0
    line := 0
    messageLen := 0
    fileLen := 0
    timeLen := 0 }

/-- Effect of `memcpy(buf, src, copyLen); buf[copyLen] = 0` on a buffer modelled as a byte
list: the first `copyLen` bytes come from `src`, byte number `copyLen` becomes 0, and the
rest of the buffer is untouched. -/
def storeTerminated (buf src : List Nat) (copyLen : Nat) : List Nat :=
  src.take copyLen ++ [0] ++ buf.drop (copyLen + 1)

/-- Model of `LogEntry::setMessage` (`winlog.cpp` lines 91-98). A null `msg` pointer is
modelled as `none`; the byte list carried by `some` is the memory the pointer refers to. -/
def LogEntry.setMessage (e : LogEntry) (msg : Option (List Nat)) (len : Nat) : LogEntry :=
  match msg with
  | none => e
  | some m =>
    if 0 < len then
      { e with
        message := storeTerminated e.message m (min len (LOG_MESSAGE_BUFFER_SIZE - 1)),
        messageLen := min len (LOG_MESSAGE_BUFFER_SIZE - 1) }
    else e

/-- Model of `LogEntry::setFile` (`winlog.cpp` lines 101-108). -/
def LogEntry.setFile (e : LogEntry) (filename : Option (List Nat)) (len : Nat) : LogEntry :=
  match filename with
  | none => e
  | some m =>
    if 0 < len then
      { e with
        file := storeTerminated e.file m (min len (LOG_FILE_BUFFER_SIZE - 1)),
        fileLen := min len (LOG_FILE_BUFFER_SIZE - 1) }
    else e

/-- Model of `LogEntry::setTime` (`winlog.cpp` lines 111-118); the cap is the literal 31. -/
def LogEntry.setTime (e : LogEntry) (timestamp : Option (List Nat)) (len : Nat) : LogEntry :=
  match timestamp with
  | none => e
  | some m =>
    if 0 < len then
      { e with
        time := storeTerminated e.time m (min len 31),
        timeLen := min len 31 }
    else e

/-- Helper for `buf[0] = 0`: zero the first byte of a buffer, leaving the rest in place. -/
def zeroFirst : List Nat → List Nat
  | [] => []
  | _ :: rest => 0 :: rest

/-- Model of `LogEntry::reset` (`winlog.cpp` lines 79-88): clear level, line and the length
fields and null-terminate each buffer at position 0. -/
def LogEntry.reset (e : LogEntry) : LogEntry :=
  { e with
    level := LogLevel.info, line := 0, messageLen := 0, fileLen := 0, timeLen := 0,
    message := zeroFirst e.message, file := zeroFirst e.file, time := zeroFirst e.time }

/-- Model of `LogEntry::getMessage` (`winlog.h` lines 72-74): the first `messageLen` bytes. -/
def LogEntry.getMessage (e : LogEntry) : List Nat :=
  e.message.take e.messageLen

/-- Model of the move constructor `LogEntry::LogEntry(LogEntry&&)` (`winlog.cpp` lines 46-76).
The target object's buffers start as indeterminate storage, modelled by the three garbage
parameters; a populated buffer is copied with `memcpy(dst, src, len + 1)`, an unpopulated one
is not copied at all. Returns the constructed entry together with the moved-from source as
the code leaves it. -/
def LogEntry.moveConstruct (garbageTime garbageMessage garbageFile : List Nat)
    (other : LogEntry) : LogEntry × LogEntry :=
  let fresh : LogEntry :=
    { level := other.level
      line := other.line
      messageLen := other.messageLen
      fileLen := other.fileLen
      timeLen := other.timeLen
      message :=
        if 0 < other.messageLen then
          other.message.take (other.messageLen + 1) ++ garbageMessage.drop (other.messageLen + 1)
        else garbageMessage
      file :=
        if 0 < other.fileLen then
          other.file.take (other.fileLen + 1) ++ garbageFile.drop (other.fileLen + 1)
        else garbageFile
      time :=
        if 0 < other.timeLen then
          other.time.take (other.timeLen + 1) ++ garbageTime.drop (other.timeLen + 1)
        else garbageTime }
  let movedFrom : LogEntry :=
    { other with
      level := LogLevel.info, line := 0, messageLen := 0, fileLen := 0, timeLen := 0,
      message := zeroFirst other.message, file := zeroFirst other.file,
      time := zeroFirst other.time }
  (fresh, movedFrom)

/-- The temporary built by the copy overload `AsyncLogQueue::enqueue(const LogEntry&)`
(`async_log_queue.cpp` lines 125-137): default-construct `tempEntry`, copy `level`, memcpy
the whole `message` buffer and force its final byte to 0, copy `line`, and clear `file[0]`.
The length fields of `tempEntry` keep their default value 0: the code never copies them. -/
def copyEnqueueTemp (e : LogEntry) : LogEntry :=
  { LogEntry.mkDefault with
    level := e.level,
    message := storeTerminated LogEntry.mkDefault.message e.message (LOG_MESSAGE_BUFFER_SIZE - 1),
    line := e.line,
    file := zeroFirst LogEntry.mkDefault.file }

/-- The entry that actually lands in the queue when the copy overload is used: the temporary
is handed to the move overload, whose `queue_.push(std::move(tempEntry))` move-constructs the
queued element on fresh (indeterminate) storage. -/
def copyEnqueuedEntry (garbageTime garbageMessage garbageFile : List Nat)
    (e : LogEntry) : LogEntry :=
  (LogEntry.moveConstruct garbageTime garbageMessage garbageFile (copyEnqueueTemp e)).1

/-- One mutation of a `LogEntry` through its three setters, used to talk about arbitrary
sequences of `setMessage` / `setFile` / `setTime` calls. -/
inductive SetOp where
  | setMsg (bytes : Option (List Nat)) (len : Nat)
  | setFil (bytes : Option (List Nat)) (len : Nat)
  | setTim (bytes : Option (List Nat)) (len : Nat)
deriving DecidableEq

/-- Apply one setter call to an entry. -/
def applySetOp (e : LogEntry) : SetOp → LogEntry
  | SetOp.setMsg b len => e.setMessage b len
  | SetOp.setFil b len => e.setFile b len
  | SetOp.setTim b len => e.setTime b len

/-- Apply a sequence of setter calls from left to right. -/
def applySetOps (e : LogEntry) (ops : List SetOp) : LogEntry :=
  ops.foldl applySetOp e

/-- A setter call is well formed when its source pointer really refers to at least `len`
readable bytes (the implicit precondition of the `memcpy` in the C++ code). -/
def SetOp.wf : SetOp → Bool
  | SetOp.setMsg none _ => true
  | SetOp.setMsg (some m) len => decide (len ≤ m.length)
  | SetOp.setFil none _ => true
  | SetOp.setFil (some m) len => decide (len ≤ m.length)
  | SetOp.setTim none _ => true
  | SetOp.setTim (some m) len => decide (len ≤ m.length)

/-- The `LogEntry` representation invariant: each length field is at most the buffer capacity
minus one, and each buffer has exactly its declared capacity. -/
def entryWF (e : LogEntry) : Prop :=
  e.messageLen ≤ LOG_MESSAGE_BUFFER_SIZE - 1 ∧
  e.fileLen ≤ LOG_FILE_BUFFER_SIZE - 1 ∧
  e.timeLen ≤ LOG_TIME_BUFFER_SIZE - 1 ∧
  e.message.length = LOG_MESSAGE_BUFFER_SIZE ∧
  e.file.length = LOG_FILE_BUFFER_SIZE ∧
  e.time.length = LOG_TIME_BUFFER_SIZE

instance (e : LogEntry) : Decidable (entryWF e) := by
  unfold entryWF; infer_instance

/-- Configuration fields of `AsyncLogQueue` consulted by the queue operations: the capacity
`queueSize_`, the batch bound `maxBatchSize_`, and the overflow policy `dropOnOverflow_`. -/
structure QCfg where
  queueSize : Nat
  maxBatchSize : Nat
  dropOnOverflow : Bool
deriving DecidableEq

/-- Shared state of one `AsyncLogQueue` instance: the FIFO queue, the stop flag, whether a
log handler has been installed, the queue-side stats (`stats_`), and the pool state (global
free list, thread-local cache of the acting thread, and the atomic counters). The element
type of the queue is a parameter so that entries can be abstract tokens where their content
does not matter. -/
structure AQState (α : Type) where
  queue : List α
  stopRequested : Bool
  handlerSet : Bool
  totalEnqueued : Nat
  totalDropped : Nat
  totalProcessed : Nat
  currentQueueSize : Nat
  freeList : List LogEntry
  tlsCache : List LogEntry
  totalAllocations : Nat
  totalDeallocations : Nat
  peakPoolSize : Nat
  currentPoolSize : Nat
  tlsCacheHits : Nat
deriving DecidableEq

/-- The `AsyncLogQueue::Stats` snapshot structure (`async_log_queue.h` lines 56-67). -/
structure Stats where
  totalEnqueued : Nat
  totalDropped : Nat
  totalProcessed : Nat
  currentQueueSize : Nat
  totalAllocations : Nat
  totalDeallocations : Nat
  peakPoolSize : Nat
  currentPoolSize : Nat
  tlsCacheHits : Nat
deriving DecidableEq

/-- Model of `AsyncLogQueue::getStats` (`async_log_queue.cpp` lines 244-258): copy the
queue-side stats and overwrite the pool fields from the atomic counters. -/
def getStats {α : Type} (st : AQState α) : Stats :=
  { totalEnqueued := st.totalEnqueued
    totalDropped := st.totalDropped
    totalProcessed := st.totalProcessed
    currentQueueSize := st.currentQueueSize
    totalAllocations := st.totalAllocations
    totalDeallocations := st.totalDeallocations
    peakPoolSize := st.peakPoolSize
    currentPoolSize := st.currentPoolSize
    tlsCacheHits := st.tlsCacheHits }

/-- Model of `AsyncLogQueue::resetStats` (`async_log_queue.cpp` lines 261-275): zero the four
queue-side counters and the three pool counters `totalAllocations_`, `totalDeallocations_`
and `tlsCacheHits_`; `peakPoolSize_` and `currentPoolSize_` are deliberately not reset. -/
def resetStats {α : Type} (st : AQState α) : AQState α :=
  { st with
    totalEnqueued := 0, totalDropped := 0, totalProcessed := 0, currentQueueSize := 0,
    totalAllocations := 0, totalDeallocations := 0, tlsCacheHits := 0 }

/-- State of a freshly constructed `AsyncLogQueue` (`async_log_queue.cpp` lines 14-50): empty
queue, stop flag clear, no handler yet, all counters zero, and a global free list pre-filled
with `memoryPoolSize` default-constructed entries; `currentPoolSize_` is set to that size and
`peakPoolSize_` is raised to it when it is larger than the initial 0, which always yields
`memoryPoolSize` itself. -/
def initState (α : Type) (memoryPoolSize : Nat) : AQState α :=
  { queue := []
    stopRequested := false
    handlerSet := false
    totalEnqueued := 0
    totalDropped := 0
    totalProcessed := 0
    currentQueueSize := 0
    freeList := List.replicate memoryPoolSize LogEntry.mkDefault
    tlsCache := []
    totalAllocations := 0
    totalDeallocations := 0
    peakPoolSize := memoryPoolSize
    currentPoolSize := memoryPoolSize
    tlsCacheHits := 0 }

/-- Model of `AsyncLogQueue::enqueue(LogEntry&&)` (`async_log_queue.cpp` lines 140-187) as
one atomic step at its linearization point. In the full non-drop case the bounded 100 ms wait
re-checks `queue_.size() < queueSize_ || isStopped()`; within one serialized step no consumer
can free space and the stop flag cannot newly appear, so that path resolves to the
timeout branch, which counts the entry as dropped and fails. Returns the new state and the
boolean result. -/
def enqueueStep {α : Type} (cfg : QCfg) (st : AQState α) (a : α) : AQState α × Bool :=
  if st.stopRequested then (st, false)
  else if cfg.queueSize ≤ st.queue.length then
    if cfg.dropOnOverflow then
      ({ st with totalDropped := st.totalDropped + 1 }, false)
    else
      ({ st with totalDropped := st.totalDropped + 1 }, false)
  else
    ({ st with
        queue := st.queue ++ [a],
        totalEnqueued := st.totalEnqueued + 1,
        currentQueueSize := st.queue.length + 1 }, true)

/-- Model of the copy overload `AsyncLogQueue::enqueue(const LogEntry&)` (`async_log_queue.cpp`
lines 125-137): build the temporary and hand it to the move overload; on success the element
sitting in the queue is the move-constructed image of the temporary. -/
def enqueueCopyStep (cfg : QCfg) (st : AQState LogEntry)
    (garbageTime garbageMessage garbageFile : List Nat) (e : LogEntry) :
    AQState LogEntry × Bool :=
  enqueueStep cfg st (copyEnqueuedEntry garbageTime garbageMessage garbageFile e)

/-- The while loop of `AsyncLogQueue::dequeueBatch` (`async_log_queue.cpp` lines 355-359): pop
entries from the front until the queue is empty or the batch bound is reached. -/
def takeBatchLoop {α : Type} : Nat → List α → List α × List α
  | 0, q => ([], q)
  | _ + 1, [] => ([], [])
  | n + 1, x :: xs =>
    let r := takeBatchLoop n xs
    (x :: r.1, r.2)

/-- Model of `AsyncLogQueue::dequeueBatch` (`async_log_queue.cpp` lines 348-367). Returns the
new state, the batch, and whether `notFull_.notify_one()` fired: it fires exactly when the
remaining queue is non-empty and strictly below capacity. -/
def dequeueBatchStep {α : Type} (cfg : QCfg) (st : AQState α) :
    AQState α × List α × Bool :=
  let r := takeBatchLoop cfg.maxBatchSize st.queue
  ({ st with queue := r.2 }, r.1, !r.2.isEmpty && decide (r.2.length < cfg.queueSize))

/-- One dispatch pass of `AsyncLogQueue::workerThread`. While the stop flag is clear this is
an iteration of the main loop (`async_log_queue.cpp` lines 287-322): dequeue a batch; when it
is non-empty and a handler is set, the handler runs and `ok` says whether it returned
normally; only on normal return are `totalProcessed` and `currentQueueSize` updated. Once
the stop flag is set this is a pass of the shutdown drain (lines 335-344), which dequeues
and dispatches the batch but performs no stats update whatever the dispatch outcome. In
either mode a batch dequeued with no handler installed, or whose dispatch throws, is
discarded with no stats update. -/
def workerPass {α : Type} (cfg : QCfg) (st : AQState α) (ok : Bool) : AQState α :=
  let r := dequeueBatchStep cfg st
  if st.stopRequested then r.1
  else if !r.2.1.isEmpty && st.handlerSet then
    if ok then
      { r.1 with
          totalProcessed := r.1.totalProcessed + r.2.1.length,
          currentQueueSize := r.1.queue.length }
    else r.1
  else r.1

/-- Model of `AsyncLogQueue::stop` (`async_log_queue.cpp` lines 208-224) restricted to shared
state: set the permanent stop flag (idempotently); waking the waiters and joining the worker
have no effect on the modelled state. -/
def stopStep {α : Type} (st : AQState α) : AQState α :=
  { st with stopRequested := true }

/-- Timeout bound actually used by `AsyncLogQueue::flush` (`async_log_queue.cpp` line 201):
an argument of -1 selects the 5000 ms default, any other argument is used as given. -/
def flushWaitMs (timeoutMs : Int) : Int :=
  if timeoutMs = -1 then 5000 else timeoutMs

/-- The predicate the flush wait observes (`async_log_queue.cpp` line 202). -/
def flushPred {α : Type} (st : AQState α) : Bool :=
  st.queue.isEmpty || st.stopRequested

/-- Model of `AsyncLogQueue::flush` (`async_log_queue.cpp` lines 190-205): `stAtCall` is the
state when the lock is first taken and `stAtWake` the state when the bounded wait returns;
`wait_for` with a predicate returns that predicate's value at the moment it returns, so the
result in the non-stopped case is the predicate evaluated at `stAtWake`. -/
def flushResult {α : Type} (stAtCall stAtWake : AQState α) : Bool :=
  if stAtCall.stopRequested then false
  else flushPred stAtWake

/-- Serialized events acting on one `AsyncLogQueue`: a producer enqueue, one worker dispatch
pass (`ok` = the handler returned normally), a stop request, and `setLogHandler`. -/
inductive QEvent (α : Type) where
  | enq (a : α)
  | worker (ok : Bool)
  | stop
  | setHandler
deriving DecidableEq

/-- Apply one event to the shared state. -/
def applyEvent {α : Type} (cfg : QCfg) (st : AQState α) : QEvent α → AQState α
  | QEvent.enq a => (enqueueStep cfg st a).1
  | QEvent.worker ok => workerPass cfg st ok
  | QEvent.stop => stopStep st
  | QEvent.setHandler => { st with handlerSet := true }

/-- Run a serialized sequence of events from a starting state. -/
def runEvents {α : Type} (cfg : QCfg) (st : AQState α) (evs : List (QEvent α)) : AQState α :=
  evs.foldl (applyEvent cfg) st

/-- A run is clean when every worker dispatch pass returns normally and happens before the
stop request — that is, it is a main-loop pass, not a pass of the shutdown drain, which
never updates stats. The `stopped` argument carries whether a stop request precedes the
remaining events. -/
def cleanRun {α : Type} : Bool → List (QEvent α) → Bool
  | _, [] => true
  | stopped, QEvent.enq _ :: evs => cleanRun stopped evs
  | stopped, QEvent.worker ok :: evs => ok && !stopped && cleanRun stopped evs
  | _, QEvent.stop :: evs => cleanRun true evs
  | stopped, QEvent.setHandler :: evs => cleanRun stopped evs

/-- Repeated `enqueue(LogEntry&&)` calls from a single producer; returns the final state and
the list of boolean results in call order. -/
def enqueueMany {α : Type} (cfg : QCfg) : AQState α → List α → AQState α × List Bool
  | st, [] => (st, [])
  | st, a :: as =>
    let r := enqueueStep cfg st a
    let rest := enqueueMany cfg r.1 as
    (rest.1, r.2 :: rest.2)

/-- The thread-local cache capacity `ThreadLocalCache::CACHE_SIZE` (`async_log_queue.h`
line 83). -/
def CACHE_SIZE : Nat := 32

/-- Model of `AsyncLogQueue::refillGlobalPool` (`async_log_queue.cpp` lines 83-101): move the
whole thread cache into the global free list under one pool-lock acquisition, updating
`currentPoolSize_` and raising `peakPoolSize_`; a no-op without locking when the cache is
empty. Returns the new state and the number of pool-lock acquisitions performed. -/
def refillGlobalPool {α : Type} (st : AQState α) : AQState α × Nat :=
  if st.tlsCache.isEmpty then (st, 0)
  else
    ({ st with
        freeList := st.freeList ++ st.tlsCache,
        currentPoolSize := (st.freeList ++ st.tlsCache).length,
        peakPoolSize := max st.peakPoolSize (st.freeList ++ st.tlsCache).length,
        tlsCache := [] }, 1)

/-- Pop `k` items one at a time from the back of `l` (the `back(); pop_back()` loop used by
the pool): the popped items in pop order together with the remaining list. -/
def popBack {β : Type} (l : List β) (k : Nat) : List β × List β :=
  ((l.drop (l.length - k)).reverse, l.take (l.length - k))

/-- Model of `AsyncLogQueue::allocateBatch` (`async_log_queue.cpp` lines 458-525). Returns the
new state, the allocated entries, and the number of pool-lock acquisitions: the early return
satisfied purely from the thread cache never locks, every other path locks exactly once. -/
def allocateBatch {α : Type} (st : AQState α) (count : Nat) :
    AQState α × List LogEntry × Nat :=
  let st0 := { st with totalAllocations := st.totalAllocations + count }
  let takeFromCache := min count st0.tlsCache.length
  let c := popBack st0.tlsCache takeFromCache
  let st1 := { st0 with tlsCache := c.2, tlsCacheHits := st0.tlsCacheHits + takeFromCache }
  if count ≤ c.1.length then
    (st1, c.1.map LogEntry.reset, 0)
  else
    let takeFromGlobal := min (count - c.1.length) st1.freeList.length
    let g := popBack st1.freeList takeFromGlobal
    let st2 := { st1 with
        freeList := g.2,
        currentPoolSize := if 0 < takeFromGlobal then g.2.length else st1.currentPoolSize }
    let result := c.1 ++ g.1
    ((st2 : AQState α),
      (result ++ List.replicate (count - result.length) LogEntry.mkDefault).map LogEntry.reset,
      1)

/-- Model of `AsyncLogQueue::freeBatch` (`async_log_queue.cpp` lines 528-584). Returns the new
state and the number of pool-lock acquisitions performed by the call: zero when everything
fits in the thread cache, one for the cache flush via `refillGlobalPool`, and one more when
entries remain that must go straight to the global list. -/
def freeBatch {α : Type} (st : AQState α) (entries : List LogEntry) : AQState α × Nat :=
  if entries.isEmpty then (st, 0)
  else
    let st0 := { st with totalDeallocations := st.totalDeallocations + entries.length }
    let putInCache := min entries.length (CACHE_SIZE - st0.tlsCache.length)
    let st1 := { st0 with
        tlsCache := st0.tlsCache ++ (entries.take putInCache).map LogEntry.reset }
    if putInCache < entries.length then
      let r := refillGlobalPool st1
      let remainingPutInCache :=
        min (entries.length - putInCache) (CACHE_SIZE - r.1.tlsCache.length)
      let st3 := { r.1 with
          tlsCache := r.1.tlsCache ++
            ((entries.drop putInCache).take remainingPutInCache).map LogEntry.reset }
      if 0 < entries.length - putInCache - remainingPutInCache then
        ({ st3 with
            freeList := st3.freeList ++
              (entries.drop (putInCache + remainingPutInCache)).map LogEntry.reset,
            currentPoolSize := (st3.freeList ++
              (entries.drop (putInCache + remainingPutInCache)).map LogEntry.reset).length,
            peakPoolSize := max st3.peakPoolSize (st3.freeList ++
              (entries.drop (putInCache + remainingPutInCache)).map LogEntry.reset).length },
          r.2 + 1)
      else (st3, r.2)
    else (st1, 0)


theorem storeTerminated_length (buf m : List Nat) (c : Nat) (hc : c ≤ m.length)
    (hb : c + 1 ≤ buf.length) : (storeTerminated buf m c).length = buf.length := by
  simp only [storeTerminated, List.length_append, List.length_take, List.length_drop,
    List.length_cons, List.length_nil]
  omega

theorem takeBatchLoop_eq {α : Type} :
    ∀ (n : Nat) (q : List α), takeBatchLoop n q = (q.take n, q.drop n)
  | 0, _ => rfl
  | _ + 1, [] => rfl
  | n + 1, x :: xs => by
    simp [takeBatchLoop, takeBatchLoop_eq n xs]

theorem refillGlobalPool_locks_le_one {α : Type} (st : AQState α) :
    (refillGlobalPool st).2 ≤ 1 := by
  unfold refillGlobalPool
  split <;> simp

/-- C9: `resetStats` zeroes `totalEnqueued`, `totalDropped`, `totalProcessed`,
`currentQueueSize`, `totalAllocations`, `totalDeallocations` and `tlsCacheHits`, leaves
`peakPoolSize` and `currentPoolSize` unchanged, and touches no other queue or pool state. -/
theorem C9_resetStats_frame {α : Type} (st : AQState α) :
    getStats (resetStats st) =
      { totalEnqueued := 0, totalDropped := 0, totalProcessed := 0, currentQueueSize := 0,
        totalAllocations := 0, totalDeallocations := 0,
        peakPoolSize := st.peakPoolSize, currentPoolSize := st.currentPoolSize,
        tlsCacheHits := 0 } ∧
    (resetStats st).queue = st.queue ∧
    (resetStats st).stopRequested = st.stopRequested ∧
    (resetStats st).handlerSet = st.handlerSet ∧
    (resetStats st).freeList = st.freeList ∧
    (resetStats st).tlsCache = st.tlsCache ∧
    (resetStats st).peakPoolSize = st.peakPoolSize ∧
    (resetStats st).currentPoolSize = st.currentPoolSize :=
  ⟨rfl, rfl, rfl, rfl, rfl, rfl, rfl, rfl⟩

/-- C10: calling `setMessage`, `setFile` or `setTime` with a null pointer or a zero length
leaves the entry completely unchanged: previously stored content and lengths are retained. -/
theorem C10_null_or_zero_len_setters_noop (e : LogEntry) (m : List Nat) (len : Nat) :
    e.setMessage none len = e ∧ e.setMessage (some m) 0 = e ∧
    e.setFile none len = e ∧ e.setFile (some m) 0 = e ∧
    e.setTime none len = e ∧ e.setTime (some m) 0 = e :=
  ⟨rfl, rfl, rfl, rfl, rfl, rfl⟩

/-- C5: an `enqueue` call made after a stop request fails immediately, returning false with no
side effect on the queue contents or on any other state, identically in both overflow modes
(the stop check runs before the overflow policy is ever consulted). -/
theorem C5_enqueue_after_stop_rejected {α : Type} (cfg : QCfg) (st : AQState α) (a : α)
    (h : st.stopRequested = true) : enqueueStep cfg st a = (st, false) := by
  simp [enqueueStep, h]

/-- Witness for C5 at a concrete stopped state. -/
theorem C5_enqueue_after_stop_rejected_witness :
    (stopStep (initState Nat 5)).stopRequested = true ∧
    enqueueStep ⟨4, 2, true⟩ (stopStep (initState Nat 5)) 9 = (stopStep (initState Nat 5), false) :=
  ⟨rfl, C5_enqueue_after_stop_rejected ⟨4, 2, true⟩ (stopStep (initState Nat 5)) 9 rfl⟩

/-- C6: `dequeueBatch` removes exactly min(maxBatchSize, current queue size) entries from the
front of the queue without waiting, returns them in FIFO order (the prefix of the queue, in
order, possibly empty), leaves the rest of the state untouched, and notifies one waiting
producer exactly when, after removal, the queue is non-empty and strictly below capacity. -/
theorem C6_dequeueBatch_spec {α : Type} (cfg : QCfg) (st : AQState α) :
    (dequeueBatchStep cfg st).2.1 = st.queue.take cfg.maxBatchSize ∧
    (dequeueBatchStep cfg st).2.1.length = min cfg.maxBatchSize st.queue.length ∧
    (dequeueBatchStep cfg st).1 = { st with queue := st.queue.drop cfg.maxBatchSize } ∧
    ((dequeueBatchStep cfg st).2.2 = true ↔
      st.queue.drop cfg.maxBatchSize ≠ [] ∧
      (st.queue.drop cfg.maxBatchSize).length < cfg.queueSize) := by
  refine ⟨?_, ?_, ?_, ?_⟩ <;>
    simp [dequeueBatchStep, takeBatchLoop_eq, List.length_take, List.isEmpty_iff,
      decide_eq_true_iff]

/-- C2 counterexample: flush called on an already-stopped queue with an empty queue returns
false, even though the queue is observed empty (and stopped) immediately; the claim demands
true in this situation. -/
theorem C2_flush_stopped_counterexample :
    flushPred (stopStep (initState Nat 0)) = true ∧
    flushResult (stopStep (initState Nat 0)) (stopStep (initState Nat 0)) = false :=
  ⟨rfl, rfl⟩

/-- C2 amended: flush returns false whenever the queue is already stopped at the moment of the
call; otherwise it returns true iff the queue is observed empty or stopped when the bounded
wait returns; a timeout argument of -1 selects a 5000 ms wait bound and any other argument is
used as given. -/
theorem C2_flush_characterization {α : Type} (stAtCall stAtWake : AQState α) (t : Int) :
    (flushResult stAtCall stAtWake = true ↔
      stAtCall.stopRequested = false ∧
        (stAtWake.queue = [] ∨ stAtWake.stopRequested = true)) ∧
    flushWaitMs (-1) = 5000 ∧ (t ≠ -1 → flushWaitMs t = t) := by
  refine ⟨?_, rfl, ?_⟩
  · unfold flushResult flushPred
    cases h : stAtCall.stopRequested <;>
      simp [h, List.isEmpty_iff]
  · intro ht
    simp [flushWaitMs, ht]

/-- Witness for C2 at concrete states and a concrete non-default timeout. -/
theorem C2_flush_characterization_witness :
    ((flushResult (initState Nat 0) (initState Nat 0) = true ↔
      (initState Nat 0).stopRequested = false ∧
        ((initState Nat 0).queue = [] ∨ (initState Nat 0).stopRequested = true)) ∧
      flushWaitMs (-1) = 5000 ∧ ((250 : Int) ≠ -1 → flushWaitMs 250 = 250)) ∧
    flushWaitMs 250 = 250 :=
  ⟨C2_flush_characterization (initState Nat 0) (initState Nat 0) 250,
   (C2_flush_characterization (initState Nat 0) (initState Nat 0) 250).2.2 (by decide)⟩


/-- C1: the copy overload `enqueue(const LogEntry&)` does not preserve the populated fields.
At the concrete entry with message bytes 104, 105 and messageLen 2, the entry that lands in
the queue has messageLen 0 and empty message content: the overload never copies `messageLen`
into the temporary, so the move constructor invoked by `queue_.push` skips the message
buffer. This contradicts both the claim and the code's own stated intent of copying the
necessary fields. -/
theorem C1_copy_enqueue_loses_message :
    (LogEntry.mkDefault.setMessage (some [104, 105]) 2).messageLen = 2 ∧
    (LogEntry.mkDefault.setMessage (some [104, 105]) 2).getMessage = [104, 105] ∧
    (copyEnqueuedEntry (List.replicate 32 0) (List.replicate 512 0) (List.replicate 256 0)
      (LogEntry.mkDefault.setMessage (some [104, 105]) 2)).messageLen = 0 ∧
    (copyEnqueuedEntry (List.replicate 32 0) (List.replicate 512 0) (List.replicate 256 0)
      (LogEntry.mkDefault.setMessage (some [104, 105]) 2)).getMessage = [] ∧
    ((enqueueCopyStep ⟨4, 2, true⟩ (initState LogEntry 0) (List.replicate 32 0)
        (List.replicate 512 0) (List.replicate 256 0)
        (LogEntry.mkDefault.setMessage (some [104, 105]) 2)).1.queue.map
      LogEntry.messageLen) = [0] :=
  ⟨by decide, by decide, by decide, by decide, by decide⟩

/-- C7 counterexample: freeing 65 entries with an empty thread cache puts 32 into the cache,
flushes the full cache to the global list (first pool-lock acquisition), refills the cache
with 32 more, and pushes the remaining entry straight to the global list (second pool-lock
acquisition): two acquisitions in one `freeBatch` call, refuting "at most once per call". -/
theorem C7_freeBatch_two_locks_counterexample :
    ¬ ((freeBatch (initState Nat 0) (List.replicate 65 LogEntry.mkDefault)).2 ≤ 1) := by
  decide

/-- C7 amended: `allocateBatch` performs at most one global-pool-lock acquisition per call
regardless of the request size; `freeBatch` performs at most two — one flushing the full
thread cache through `refillGlobalPool` and possibly one more for entries that still do not
fit in the refreshed cache. -/
theorem C7_batch_lock_bounds {α : Type} (st : AQState α) (count : Nat)
    (entries : List LogEntry) :
    (allocateBatch st count).2.2 ≤ 1 ∧ (freeBatch st entries).2 ≤ 2 := by
  constructor
  · simp only [allocateBatch]
    split <;> simp
  · simp only [freeBatch]
    split
    · simp
    · split
      · split
        · exact Nat.succ_le_succ (refillGlobalPool_locks_le_one _)
        · exact le_trans (refillGlobalPool_locks_le_one _) (by omega)
      · simp

theorem applySetOp_wf (e : LogEntry) (op : SetOp) (he : entryWF e) (hop : op.wf = true) :
    entryWF (applySetOp e op) := by
  obtain ⟨h1, h2, h3, h4, h5, h6⟩ := he
  cases op with
  | setMsg b len =>
    cases b with
    | none => exact ⟨h1, h2, h3, h4, h5, h6⟩
    | some m =>
      simp only [SetOp.wf, decide_eq_true_iff] at hop
      simp only [applySetOp, LogEntry.setMessage]
      split
      · refine ⟨Nat.min_le_right _ _, h2, h3, ?_, h5, h6⟩
        rw [storeTerminated_length]
        · exact h4
        · exact le_trans (Nat.min_le_left _ _) hop
        · rw [h4]
          simp only [LOG_MESSAGE_BUFFER_SIZE]
          have := Nat.min_le_right len (512 - 1)
          omega
      · exact ⟨h1, h2, h3, h4, h5, h6⟩
  | setFil b len =>
    cases b with
    | none => exact ⟨h1, h2, h3, h4, h5, h6⟩
    | some m =>
      simp only [SetOp.wf, decide_eq_true_iff] at hop
      simp only [applySetOp, LogEntry.setFile]
      split
      · refine ⟨h1, Nat.min_le_right _ _, h3, h4, ?_, h6⟩
        rw [storeTerminated_length]
        · exact h5
        · exact le_trans (Nat.min_le_left _ _) hop
        · rw [h5]
          simp only [LOG_FILE_BUFFER_SIZE]
          have := Nat.min_le_right len (256 - 1)
          omega
      · exact ⟨h1, h2, h3, h4, h5, h6⟩
  | setTim b len =>
    cases b with
    | none => exact ⟨h1, h2, h3, h4, h5, h6⟩
    | some m =>
      simp only [SetOp.wf, decide_eq_true_iff] at hop
      simp only [applySetOp, LogEntry.setTime]
      split
      · refine ⟨h1, h2, ?_, h4, h5, ?_⟩
        · simp only [LOG_TIME_BUFFER_SIZE]
          have := Nat.min_le_right len 31
          omega
        · rw [storeTerminated_length]
          · exact h6
          · exact le_trans (Nat.min_le_left _ _) hop
          · rw [h6]
            simp only [LOG_TIME_BUFFER_SIZE]
            have := Nat.min_le_right len 31
            omega
      · exact ⟨h1, h2, h3, h4, h5, h6⟩

theorem applySetOps_wf : ∀ (ops : List SetOp) (e : LogEntry), entryWF e →
    (∀ op ∈ ops, op.wf = true) → entryWF (applySetOps e ops)
  | [], _, he, _ => he
  | op :: ops, e, he, hops => by
    have h1 := applySetOp_wf e op he (hops op (List.mem_cons_self op ops))
    have h2 := applySetOps_wf ops (applySetOp e op) h1
      (fun o ho => hops o (List.mem_cons_of_mem op ho))
    simpa [applySetOps] using h2

/-- C8: over every sequence of `setMessage` / `setFile` / `setTime` calls whose source
pointers are valid for the given lengths, the invariant messageLen ≤ 511, fileLen ≤ 255,
timeLen ≤ 31 is preserved and no write goes past any buffer (each buffer keeps exactly its
capacity); moreover an over-long input to each setter is truncated deterministically to the
longest prefix that fits and null-terminated, with nothing of the old buffer left behind. -/
theorem C8_setters_preserve_invariants :
    (∀ (e : LogEntry) (ops : List SetOp), entryWF e → (∀ op ∈ ops, op.wf = true) →
      entryWF (applySetOps e ops)) ∧
    (∀ (e : LogEntry) (m : List Nat) (len : Nat), entryWF e →
      LOG_MESSAGE_BUFFER_SIZE ≤ len → len ≤ m.length →
      (e.setMessage (some m) len).messageLen = LOG_MESSAGE_BUFFER_SIZE - 1 ∧
      (e.setMessage (some m) len).message = m.take (LOG_MESSAGE_BUFFER_SIZE - 1) ++ [0]) ∧
    (∀ (e : LogEntry) (m : List Nat) (len : Nat), entryWF e →
      LOG_FILE_BUFFER_SIZE ≤ len → len ≤ m.length →
      (e.setFile (some m) len).fileLen = LOG_FILE_BUFFER_SIZE - 1 ∧
      (e.setFile (some m) len).file = m.take (LOG_FILE_BUFFER_SIZE - 1) ++ [0]) ∧
    (∀ (e : LogEntry) (m : List Nat) (len : Nat), entryWF e →
      LOG_TIME_BUFFER_SIZE ≤ len → len ≤ m.length →
      (e.setTime (some m) len).timeLen = LOG_TIME_BUFFER_SIZE - 1 ∧
      (e.setTime (some m) len).time = m.take (LOG_TIME_BUFFER_SIZE - 1) ++ [0]) := by
  refine ⟨fun e ops he hops => applySetOps_wf ops e he hops, ?_, ?_, ?_⟩
  · intro e m len he hlen _
    obtain ⟨-, -, -, h4, -, -⟩ := he
    simp only [LOG_MESSAGE_BUFFER_SIZE] at hlen h4 ⊢
    have hpos : 0 < len := by omega
    have hmin : min len (512 - 1) = 512 - 1 := by omega
    have hd : e.message.drop 512 = [] := List.drop_eq_nil_of_le (le_of_eq h4)
    simp [LogEntry.setMessage, LOG_MESSAGE_BUFFER_SIZE, hpos, hmin, storeTerminated, hd]
  · intro e m len he hlen _
    obtain ⟨-, -, -, -, h5, -⟩ := he
    simp only [LOG_FILE_BUFFER_SIZE] at hlen h5 ⊢
    have hpos : 0 < len := by omega
    have hmin : min len (256 - 1) = 256 - 1 := by omega
    have hd : e.file.drop 256 = [] := List.drop_eq_nil_of_le (le_of_eq h5)
    simp [LogEntry.setFile, LOG_FILE_BUFFER_SIZE, hpos, hmin, storeTerminated, hd]
  · intro e m len he hlen _
    obtain ⟨-, -, -, -, -, h6⟩ := he
    simp only [LOG_TIME_BUFFER_SIZE] at hlen h6 ⊢
    have hpos : 0 < len := by omega
    have hmin : min len 31 = 31 := by omega
    have hd : e.time.drop 32 = [] := List.drop_eq_nil_of_le (le_of_eq h6)
    simp [LogEntry.setTime, LOG_TIME_BUFFER_SIZE, hpos, hmin, storeTerminated, hd]

/-- Witness for C8 on a concrete entry and a concrete sequence of setter calls. -/
theorem C8_setters_preserve_invariants_witness :
    entryWF (applySetOps LogEntry.mkDefault
      [SetOp.setMsg (some [104, 105]) 2, SetOp.setTim (some [49, 50, 51]) 3]) :=
  C8_setters_preserve_invariants.1 LogEntry.mkDefault
    [SetOp.setMsg (some [104, 105]) 2, SetOp.setTim (some [49, 50, 51]) 3]
    (by decide) (by decide)


theorem applyEvent_handlerSet {α : Type} (cfg : QCfg) (st : AQState α) (ev : QEvent α)
    (hh : st.handlerSet = true) : (applyEvent cfg st ev).handlerSet = true := by
  cases ev <;>
    simp only [applyEvent, enqueueStep, workerPass, dequeueBatchStep, stopStep] <;>
    (repeat' split) <;> first | rfl | exact hh

theorem applyEvent_keeps_stop {α : Type} (cfg : QCfg) (st : AQState α) :
    ∀ ev : QEvent α, ev ≠ QEvent.stop →
      (applyEvent cfg st ev).stopRequested = st.stopRequested
  | QEvent.enq _, _ => by
    simp only [applyEvent, enqueueStep]
    (repeat' split) <;> rfl
  | QEvent.worker _, _ => by
    simp only [applyEvent, workerPass, dequeueBatchStep]
    (repeat' split) <;> rfl
  | QEvent.stop, h => absurd rfl h
  | QEvent.setHandler, _ => rfl

theorem applyEvent_conservation {α : Type} (cfg : QCfg) (st : AQState α) (ev : QEvent α)
    (hh : st.handlerSet = true)
    (hev : ∀ ok : Bool, ev = QEvent.worker ok → ok = true ∧ st.stopRequested = false)
    (hinv : st.totalEnqueued = st.totalProcessed + st.queue.length) :
    (applyEvent cfg st ev).totalEnqueued =
      (applyEvent cfg st ev).totalProcessed + (applyEvent cfg st ev).queue.length := by
  cases ev with
  | enq a =>
    simp only [applyEvent, enqueueStep]
    split
    · exact hinv
    · split
      · split <;> exact hinv
      · simp only [List.length_append, List.length_cons, List.length_nil]
        omega
  | worker ok =>
    obtain ⟨hok, hstop⟩ := hev ok rfl
    subst hok
    simp only [applyEvent, workerPass, dequeueBatchStep, takeBatchLoop_eq, hstop, hh,
      Bool.and_true, Bool.false_eq_true, if_false, if_true]
    split
    · simp only [List.length_take, List.length_drop]
      omega
    · rename_i hcond
      have htake : st.queue.take cfg.maxBatchSize = [] := by
        cases hq : (st.queue.take cfg.maxBatchSize).isEmpty with
        | true => exact List.isEmpty_iff.mp hq
        | false => simp [hq] at hcond
      rcases List.take_eq_nil_iff.mp htake with h0 | h0 <;> simp [h0] at hinv ⊢ <;> omega
  | stop => exact hinv
  | setHandler => exact hinv

theorem runEvents_conservation {α : Type} (cfg : QCfg) :
    ∀ (evs : List (QEvent α)) (st : AQState α),
      st.handlerSet = true →
      st.totalEnqueued = st.totalProcessed + st.queue.length →
      cleanRun st.stopRequested evs = true →
      (runEvents cfg st evs).totalEnqueued =
        (runEvents cfg st evs).totalProcessed + (runEvents cfg st evs).queue.length
  | [], _, _, hinv, _ => hinv
  | QEvent.enq a :: evs, st, hh, hinv, hclean => by
    simp only [cleanRun] at hclean
    have hstep := applyEvent_conservation cfg st (QEvent.enq a) hh
      (fun _ h => QEvent.noConfusion h) hinv
    have hh2 := applyEvent_handlerSet cfg st (QEvent.enq a) hh
    have hkeep := applyEvent_keeps_stop cfg st (QEvent.enq a) (by simp)
    have htail := runEvents_conservation cfg evs (applyEvent cfg st (QEvent.enq a)) hh2 hstep
      (by rw [hkeep]; exact hclean)
    simpa [runEvents] using htail
  | QEvent.worker ok :: evs, st, hh, hinv, hclean => by
    simp only [cleanRun, Bool.and_eq_true, Bool.not_eq_true'] at hclean
    obtain ⟨⟨hok, hstop⟩, hrest⟩ := hclean
    subst hok
    have hstep := applyEvent_conservation cfg st (QEvent.worker true) hh
      (fun o h => by injection h with h2; exact ⟨h2.symm, hstop⟩) hinv
    have hh2 := applyEvent_handlerSet cfg st (QEvent.worker true) hh
    have hkeep := applyEvent_keeps_stop cfg st (QEvent.worker true) (by simp)
    have htail := runEvents_conservation cfg evs (applyEvent cfg st (QEvent.worker true))
      hh2 hstep (by rw [hkeep]; exact hrest)
    simpa [runEvents] using htail
  | QEvent.stop :: evs, st, hh, hinv, hclean => by
    simp only [cleanRun] at hclean
    have hh2 := applyEvent_handlerSet cfg st QEvent.stop hh
    have htail := runEvents_conservation cfg evs (applyEvent cfg st QEvent.stop) hh2 hinv
      hclean
    simpa [runEvents] using htail
  | QEvent.setHandler :: evs, st, hh, hinv, hclean => by
    simp only [cleanRun] at hclean
    have hh2 := applyEvent_handlerSet cfg st QEvent.setHandler hh
    have htail := runEvents_conservation cfg evs (applyEvent cfg st QEvent.setHandler) hh2
      hinv hclean
    simpa [runEvents] using htail

/-- C3 counterexample: with no log handler installed, one successful enqueue followed by one
worker pass leaves the queue drained (a quiescent point) with totalEnqueued = 1,
totalDropped = 0 and totalProcessed = 0, so totalEnqueued - totalDropped is 1, not
totalProcessed: the dequeued batch was discarded without being counted as processed. -/
theorem C3_conservation_counterexample :
    (runEvents ⟨10, 10, true⟩ (initState Nat 0)
      [QEvent.enq 7, QEvent.worker true]).queue = [] ∧
    ¬ ((runEvents ⟨10, 10, true⟩ (initState Nat 0)
          [QEvent.enq 7, QEvent.worker true]).totalEnqueued -
        (runEvents ⟨10, 10, true⟩ (initState Nat 0)
          [QEvent.enq 7, QEvent.worker true]).totalDropped =
        (runEvents ⟨10, 10, true⟩ (initState Nat 0)
          [QEvent.enq 7, QEvent.worker true]).totalProcessed) := by
  constructor
  · decide
  · decide

/-- C3 amended: over any serialized run in which a log handler is installed before any step,
every dispatch returns normally, and every worker dispatch happens before the stop request
(the shutdown drain at `async_log_queue.cpp` lines 335-344 never updates stats, so post-stop
drain passes are excluded), totalEnqueued = totalProcessed + (current queue length) holds at
every point, so at every quiescent point (queue drained) totalEnqueued = totalProcessed.
Dropped entries are never counted in totalEnqueued, and batches consumed with no handler
set, under a throwing handler, or during the post-stop drain are never counted in
totalProcessed, so the spec equation totalEnqueued - totalDropped = totalProcessed holds
only when totalDropped = 0 and fails for those runs. -/
theorem C3_conservation_with_handler {α : Type} (cfg : QCfg) (p : Nat)
    (evs : List (QEvent α)) (hok : cleanRun false evs = true) :
    (runEvents cfg { initState α p with handlerSet := true } evs).totalEnqueued =
      (runEvents cfg { initState α p with handlerSet := true } evs).totalProcessed +
      (runEvents cfg { initState α p with handlerSet := true } evs).queue.length :=
  runEvents_conservation cfg evs { initState α p with handlerSet := true } rfl rfl hok

/-- Witness for C3 at a concrete clean run with a handler installed. -/
theorem C3_conservation_with_handler_witness :
    cleanRun false [QEvent.enq 5, QEvent.worker true, QEvent.enq 6, QEvent.stop] = true ∧
    (runEvents ⟨3, 2, false⟩ { initState Nat 0 with handlerSet := true }
        [QEvent.enq 5, QEvent.worker true, QEvent.enq 6, QEvent.stop]).totalEnqueued =
      (runEvents ⟨3, 2, false⟩ { initState Nat 0 with handlerSet := true }
        [QEvent.enq 5, QEvent.worker true, QEvent.enq 6, QEvent.stop]).totalProcessed +
      (runEvents ⟨3, 2, false⟩ { initState Nat 0 with handlerSet := true }
        [QEvent.enq 5, QEvent.worker true, QEvent.enq 6, QEvent.stop]).queue.length :=
  ⟨by decide,
   C3_conservation_with_handler ⟨3, 2, false⟩ 0
     [QEvent.enq 5, QEvent.worker true, QEvent.enq 6, QEvent.stop] (by decide)⟩


theorem enqueueMany_fill {α : Type} (cfg : QCfg) :
    ∀ (as : List α) (st : AQState α), st.stopRequested = false →
      st.queue.length + as.length ≤ cfg.queueSize →
      (enqueueMany cfg st as).2 = List.replicate as.length true ∧
      (enqueueMany cfg st as).1.queue = st.queue ++ as ∧
      (enqueueMany cfg st as).1.totalEnqueued = st.totalEnqueued + as.length ∧
      (enqueueMany cfg st as).1.totalDropped = st.totalDropped ∧
      (enqueueMany cfg st as).1.stopRequested = false
  | [], st, hstop, _ => by
    simp [enqueueMany, hstop]
  | a :: as, st, hstop, hcap => by
    have hnot : ¬ cfg.queueSize ≤ st.queue.length := by
      simp only [List.length_cons] at hcap; omega
    have hstep : enqueueStep cfg st a =
        ({ st with
            queue := st.queue ++ [a],
            totalEnqueued := st.totalEnqueued + 1,
            currentQueueSize := st.queue.length + 1 }, true) := by
      simp [enqueueStep, hstop, hnot]
    have ih := enqueueMany_fill cfg as
      { st with
        queue := st.queue ++ [a],
        totalEnqueued := st.totalEnqueued + 1,
        currentQueueSize := st.queue.length + 1 }
      hstop
      (by
        simp only [List.length_append, List.length_cons, List.length_nil] at hcap ⊢
        omega)
    refine ⟨?_, ?_, ?_, ?_, ?_⟩ <;>
      simp only [enqueueMany, hstep, ih.1, ih.2.1, ih.2.2.1, ih.2.2.2.1, ih.2.2.2.2,
        List.length_cons, List.replicate_succ, List.append_assoc, List.singleton_append]
    omega

theorem enqueueMany_append {α : Type} (cfg : QCfg) :
    ∀ (as bs : List α) (st : AQState α),
      enqueueMany cfg st (as ++ bs) =
        ((enqueueMany cfg (enqueueMany cfg st as).1 bs).1,
          (enqueueMany cfg st as).2 ++ (enqueueMany cfg (enqueueMany cfg st as).1 bs).2)
  | [], bs, st => by simp [enqueueMany]
  | a :: as, bs, st => by
    simp only [List.cons_append, enqueueMany, List.append_eq,
      enqueueMany_append cfg as bs, List.nil_append]

/-- C4: with queue capacity N, dropOnOverflow true, and no consumption, N+1 enqueue calls from
one producer on a fresh queue return true exactly N times followed by one false; the final
queue holds exactly the first N entries (size N), getStats reports totalDropped = 1 and
totalEnqueued = N, and the failing call leaves the queue contents unchanged (the queue after
all N+1 calls equals the queue after the first N calls). -/
theorem C4_overflow_determinism {α : Type} (N b p : Nat) (es : List α)
    (h : es.length = N + 1) :
    (enqueueMany ⟨N, b, true⟩ (initState α p) es).2 = List.replicate N true ++ [false] ∧
    (enqueueMany ⟨N, b, true⟩ (initState α p) es).1.queue = es.take N ∧
    (enqueueMany ⟨N, b, true⟩ (initState α p) es).1.queue.length = N ∧
    (getStats (enqueueMany ⟨N, b, true⟩ (initState α p) es).1).totalDropped = 1 ∧
    (getStats (enqueueMany ⟨N, b, true⟩ (initState α p) es).1).totalEnqueued = N ∧
    (enqueueMany ⟨N, b, true⟩ (initState α p) es).1.queue =
      (enqueueMany ⟨N, b, true⟩ (initState α p) (es.take N)).1.queue := by
  obtain ⟨a, ha⟩ : ∃ a, es.drop N = [a] := by
    apply List.length_eq_one.mp
    rw [List.length_drop, h]; omega
  set t := es.take N with ht
  have htake : t.length = N := by
    rw [ht, List.length_take, h]; omega
  have hfill := enqueueMany_fill ⟨N, b, true⟩ t (initState α p) rfl
    (by simp [initState, htake])
  set s1 := (enqueueMany ⟨N, b, true⟩ (initState α p) t).1 with hs1
  have hq : s1.queue = t := by
    have := hfill.2.1
    simpa [initState] using this
  have hqlen : s1.queue.length = N := by rw [hq, htake]
  have hstop1 : s1.stopRequested = false := hfill.2.2.2.2
  have hdrop1 : s1.totalDropped = 0 := by
    have := hfill.2.2.2.1
    simpa [initState] using this
  have henq1 : s1.totalEnqueued = N := by
    have := hfill.2.2.1
    simpa [initState, htake] using this
  have hfull : (⟨N, b, true⟩ : QCfg).queueSize ≤ s1.queue.length := by
    rw [hqlen]
  have hlast : enqueueMany ⟨N, b, true⟩ s1 [a] =
      ({ s1 with totalDropped := s1.totalDropped + 1 }, [false]) := by
    simp [enqueueMany, enqueueStep, hstop1, hfull]
  have ha2 : t ++ [a] = es := by rw [ht, ← ha, List.take_append_drop]
  rw [← ha2, enqueueMany_append, ← hs1, hlast]
  refine ⟨?_, hq, hqlen, ?_, ?_, ?_⟩
  · rw [hfill.1, htake]
  · simp [getStats, hdrop1]
  · simp [getStats, henq1]
  · rw [hq]

/-- Witness for C4 with capacity 1 and two enqueued entries. -/
theorem C4_overflow_determinism_witness :
    ([3, 4] : List Nat).length = 1 + 1 ∧
    ((enqueueMany ⟨1, 1, true⟩ (initState Nat 0) [3, 4]).2 =
        List.replicate 1 true ++ [false] ∧
      (enqueueMany ⟨1, 1, true⟩ (initState Nat 0) [3, 4]).1.queue = ([3, 4] : List Nat).take 1 ∧
      (enqueueMany ⟨1, 1, true⟩ (initState Nat 0) [3, 4]).1.queue.length = 1 ∧
      (getStats (enqueueMany ⟨1, 1, true⟩ (initState Nat 0) [3, 4]).1).totalDropped = 1 ∧
      (getStats (enqueueMany ⟨1, 1, true⟩ (initState Nat 0) [3, 4]).1).totalEnqueued = 1 ∧
      (enqueueMany ⟨1, 1, true⟩ (initState Nat 0) [3, 4]).1.queue =
        (enqueueMany ⟨1, 1, true⟩ (initState Nat 0) (([3, 4] : List Nat).take 1)).1.queue) :=
  ⟨by decide, C4_overflow_determinism 1 1 0 [3, 4] (by decide)⟩

end Winlog
